import Mathlib

/-
Verification of the Conflict & Schedule Resolver logic of the salon
appointment page (src/src/react-app/pages/Appointments - Copia.tsx).

Embedding choices:
  * Time instants are integers in minutes (the page reads and writes
    datetime-local values at minute granularity, format YYYY-MM-DDTHH:mm,
    and moment comparisons isBefore/isAfter are total-order comparisons on
    instants).
  * JS numbers appearing in price arithmetic are modelled as exact
    rationals; Math.round is round-half-up, x reduced to the floor of
    x + 1/2, which is the JS semantics over the reals.
  * The Array.prototype.find call on the appointments array is modelled as
    List.find? over a list in insertion order.
-/

namespace Appointments

/-- Appointment record as used by the page (fields of AppointmentType that
the embedded logic reads). Instants are minutes. -/
structure AppointmentType where
  id : Nat
  client_id : Nat
  professional_id : Nat
  service_id : Nat
  appointment_date : Int
  end_date : Int
  price : Int
  attended : Bool
deriving DecidableEq, Repr

/-- Service reference data: id, name, price in minor units, duration in
minutes. -/
structure ServiceType where
  id : Nat
  sname : String
  price : Int
  duration : Int
deriving DecidableEq, Repr

/-- Client reference data. -/
structure ClientType where
  id : Nat
  cname : String
deriving DecidableEq, Repr

/-- Professional reference data. -/
structure ProfessionalType where
  id : Nat
  pname : String
deriving DecidableEq, Repr

/-- End-date derivation from the useEffect at lines 103-114:
`moment(watchedStartDate).add(selectedService.duration, 'minutes')`,
formatted back at minute granularity. -/
def derive_end_time (start : Int) (service : ServiceType) : Int :=
  start + service.duration

/-- The callback passed to `appointments.find` in onSubmit (lines 187-193):
skip the appointment being edited, skip other professionals, otherwise test
`newStart.isBefore(existingEnd) && newEnd.isAfter(existingStart)`. -/
def conflictCallback (editingId : Option Nat) (professionalId : Nat)
    (newStart newEnd : Int) (app : AppointmentType) : Bool :=
  if editingId = some app.id then false
  else if app.professional_id ≠ professionalId then false
  else decide (newStart < app.end_date) && decide (newEnd > app.appointment_date)

/-- `const conflictingAppointment = appointments.find(...)` (line 187). -/
def conflictingAppointment (appointments : List AppointmentType)
    (editingId : Option Nat) (professionalId : Nat)
    (newStart newEnd : Int) : Option AppointmentType :=
  appointments.find? (conflictCallback editingId professionalId newStart newEnd)

/-- The conflict predicate the spec calls has_conflict: whether the find
call produced a conflicting appointment (line 194 truthiness test). -/
def has_conflict (appointments : List AppointmentType) (editingId : Option Nat)
    (professionalId : Nat) (newStart newEnd : Int) : Bool :=
  (conflictingAppointment appointments editingId professionalId newStart newEnd).isSome

/-- JS Math.round over exact rationals: round half up. -/
def jsMathRound (x : ℚ) : Int := ⌊x + 1/2⌋

/-- Price as loaded into the edit form by handleOpenModal (line 158):
`appointment.price / 100`. -/
def handleOpenModal_price (app : AppointmentType) : ℚ :=
  (app.price : ℚ) / 100

/-- Price as recomputed on submit (line 207):
`Math.round(Number(data.price) * 100)`. -/
def onSubmit_price (price : ℚ) : Int :=
  jsMathRound (price * 100)

/-- The form data onSubmit receives (AppointmentFormData, lines 26-34);
`attended` is optional and defaulted with `?? false` on submit. -/
structure AppointmentFormData where
  client_id : Nat
  professional_id : Nat
  service_id : Nat
  price : ℚ
  appointment_date : Int
  end_date : Int
  attended : Option Bool

/-- The appointmentData object built on submit (lines 205-215). -/
structure AppointmentRecord where
  client_id : Nat
  professional_id : Nat
  service_id : Nat
  appointment_date : Int
  end_date : Int
  price : Int
  client_name : String
  professional : String
  service : String
  attended : Bool
deriving DecidableEq, Repr

/-- The observable outcome of onSubmit: a conflict error message, an
invalid-data error message, or exactly one write (update or add) carrying
the record written. -/
inductive SubmitOutcome where
  | conflictError
  | invalidDataError
  | updated (a : AppointmentRecord)
  | added (a : AppointmentRecord)
deriving DecidableEq, Repr

/-- The read-only store snapshots the page consumes. -/
structure StoreState where
  appointments : List AppointmentType
  clients : List ClientType
  professionals : List ProfessionalType
  services : List ServiceType

/-- onSubmit (lines 182-228): check for a conflicting appointment first and
abort with the conflict message; then resolve client/professional/service
and abort if any is missing; otherwise build appointmentData and perform
exactly one write, update when editing, add otherwise. -/
def onSubmit (store : StoreState) (editingAppointment : Option AppointmentType)
    (data : AppointmentFormData) : SubmitOutcome :=
  let newStart := data.appointment_date
  let newEnd := data.end_date
  let professionalId := data.professional_id
  match conflictingAppointment store.appointments
      (editingAppointment.map (fun a => a.id)) professionalId newStart newEnd with
  | some _ => SubmitOutcome.conflictError
  | none =>
    match store.clients.find? (fun c => c.id == data.client_id),
          store.professionals.find? (fun p => p.id == data.professional_id),
          store.services.find? (fun s => s.id == data.service_id) with
    | some client, some professional, some service =>
      let appointmentData : AppointmentRecord :=
        { client_id := data.client_id
          professional_id := professionalId
          service_id := data.service_id
          appointment_date := data.appointment_date
          end_date := data.end_date
          price := onSubmit_price data.price
          client_name := client.cname
          professional := professional.pname
          service := service.sname
          attended := data.attended.getD false }
      match editingAppointment with
      | some _ => SubmitOutcome.updated appointmentData
      | none => SubmitOutcome.added appointmentData
    | _, _, _ => SubmitOutcome.invalidDataError

/-- Model of the traversal Array.prototype.find performs: visit elements in
order until the predicate holds, returning the result found together with
the collection as the traversal leaves it. -/
def find_traverse (p : AppointmentType → Bool) :
    List AppointmentType → Option AppointmentType × List AppointmentType
  | [] => (none, [])
  | a :: as =>
    if p a then (some a, a :: as)
    else
      let r := find_traverse p as
      (r.1, a :: r.2)

/-- The spec's worked example: professional P (id 1) has an appointment
10:00-10:30, in minutes 600-630. -/
def exampleExisting : AppointmentType :=
  { id := 1, client_id := 1, professional_id := 1, service_id := 1,
    appointment_date := 600, end_date := 630, price := 5000, attended := false }

/-- Unfolded form of the find callback for a non-excluded appointment. -/
theorem conflictCallback_eq_of_not_excluded (editingId : Option Nat)
    (professionalId : Nat) (newStart newEnd : Int) (app : AppointmentType)
    (h : editingId ≠ some app.id) :
    conflictCallback editingId professionalId newStart newEnd app =
      (decide (app.professional_id = professionalId) &&
        (decide (newStart < app.end_date) && decide (newEnd > app.appointment_date))) := by
  unfold conflictCallback
  rw [if_neg h]
  by_cases hp : app.professional_id = professionalId
  · simp [hp]
  · simp [hp]

/-- C1: for a non-excluded existing appointment E, the conflict callback
reports E as conflicting with candidate (professionalId, newStart, newEnd)
iff E has the same professional and the open intervals overlap
(newStart < E.end and newEnd > E.start); and on the spec's worked example
(P booked 600-630) a P candidate 615-645 conflicts while a P candidate
630-660 and a Q candidate 600-630 do not. -/
theorem hasConflict_iff_open_overlap (editingId : Option Nat)
    (professionalId : Nat) (newStart newEnd : Int) (app : AppointmentType)
    (h : editingId ≠ some app.id) :
    (conflictCallback editingId professionalId newStart newEnd app = true ↔
      (app.professional_id = professionalId ∧
        newStart < app.end_date ∧ newEnd > app.appointment_date)) ∧
    has_conflict [exampleExisting] none 1 615 645 = true ∧
    has_conflict [exampleExisting] none 1 630 660 = false ∧
    has_conflict [exampleExisting] none 2 600 630 = false := by
  refine ⟨?_, by decide, by decide, by decide⟩
  rw [conflictCallback_eq_of_not_excluded editingId professionalId newStart newEnd app h]
  simp [and_assoc]

/-- Witness for hasConflict_iff_open_overlap at a concrete non-excluded
appointment. -/
theorem hasConflict_iff_open_overlap_witness :
    (conflictCallback none 1 615 645 exampleExisting = true ↔
      (exampleExisting.professional_id = 1 ∧
        (615 : Int) < exampleExisting.end_date ∧
        (645 : Int) > exampleExisting.appointment_date)) ∧
    has_conflict [exampleExisting] none 1 615 645 = true ∧
    has_conflict [exampleExisting] none 1 630 660 = false ∧
    has_conflict [exampleExisting] none 2 600 630 = false :=
  hasConflict_iff_open_overlap none 1 615 645 exampleExisting (by decide)

/-- C2: derive_end_time adds the service duration in minutes to the start
instant, so the derived end minus the start is exactly the duration, and
the computation is deterministic: equal inputs give equal outputs. -/
theorem derive_end_time_spec (start : Int) (service : ServiceType)
    (start2 : Int) (service2 : ServiceType)
    (hs : start = start2) (hsvc : service = service2) :
    derive_end_time start service = start + service.duration ∧
    derive_end_time start service - start = service.duration ∧
    derive_end_time start service = derive_end_time start2 service2 := by
  subst hs hsvc
  refine ⟨rfl, ?_, rfl⟩
  unfold derive_end_time
  omega

/-- Witness for derive_end_time_spec at start 600 with a 30-minute
service. -/
theorem derive_end_time_spec_witness :
    derive_end_time 600 ⟨1, "corte", 5000, 30⟩ = 600 + (30 : Int) ∧
    derive_end_time 600 ⟨1, "corte", 5000, 30⟩ - 600 = (30 : Int) ∧
    derive_end_time 600 ⟨1, "corte", 5000, 30⟩ = derive_end_time 600 ⟨1, "corte", 5000, 30⟩ := by
  have h := derive_end_time_spec 600 ⟨1, "corte", 5000, 30⟩ 600 ⟨1, "corte", 5000, 30⟩ rfl rfl
  exact ⟨h.1, h.2.1, h.2.2⟩

/-- C3: a same-professional existing appointment whose interval merely
touches or is disjoint from the candidate (candidate ends at or before it
starts, or it ends at or before the candidate starts) is never reported as
a conflict, neither by the callback nor by has_conflict over the singleton
collection. -/
theorem hasConflict_touching_false (editingId : Option Nat)
    (professionalId : Nat) (newStart newEnd : Int) (app : AppointmentType)
    (_hp : app.professional_id = professionalId)
    (h : newEnd ≤ app.appointment_date ∨ app.end_date ≤ newStart) :
    conflictCallback editingId professionalId newStart newEnd app = false ∧
    has_conflict [app] editingId professionalId newStart newEnd = false := by
  have hcb : conflictCallback editingId professionalId newStart newEnd app = false := by
    unfold conflictCallback
    rcases h with h | h
    · by_cases he : editingId = some app.id
      · simp [he]
      · rw [if_neg he]
        by_cases hpid : app.professional_id ≠ professionalId
        · simp [hpid]
        · rw [if_neg hpid]
          simp only [Bool.and_eq_false_iff, decide_eq_false_iff_not, not_lt, gt_iff_lt]
          right
          omega
    · by_cases he : editingId = some app.id
      · simp [he]
      · rw [if_neg he]
        by_cases hpid : app.professional_id ≠ professionalId
        · simp [hpid]
        · rw [if_neg hpid]
          simp only [Bool.and_eq_false_iff, decide_eq_false_iff_not, not_lt, gt_iff_lt]
          left
          omega
  refine ⟨hcb, ?_⟩
  unfold has_conflict conflictingAppointment
  simp [List.find?, hcb]

/-- Witness for hasConflict_touching_false: P candidate 630-660 against
P's existing 600-630 appointment (touching endpoints). -/
theorem hasConflict_touching_false_witness :
    conflictCallback none 1 630 660 exampleExisting = false ∧
    has_conflict [exampleExisting] none 1 630 660 = false :=
  hasConflict_touching_false none 1 630 660 exampleExisting (by decide) (by decide)

/-- C4: an existing appointment of a different professional is never
reported as a conflict, whatever the time intervals, neither by the
callback nor by has_conflict over the singleton collection. -/
theorem hasConflict_different_professional_false (editingId : Option Nat)
    (professionalId : Nat) (newStart newEnd : Int) (app : AppointmentType)
    (hp : app.professional_id ≠ professionalId) :
    conflictCallback editingId professionalId newStart newEnd app = false ∧
    has_conflict [app] editingId professionalId newStart newEnd = false := by
  have hcb : conflictCallback editingId professionalId newStart newEnd app = false := by
    unfold conflictCallback
    by_cases he : editingId = some app.id
    · simp [he]
    · rw [if_neg he, if_pos hp]
  refine ⟨hcb, ?_⟩
  unfold has_conflict conflictingAppointment
  simp [List.find?, hcb]

/-- Witness for hasConflict_different_professional_false: professional Q
(id 2) candidate fully overlapping P's existing appointment. -/
theorem hasConflict_different_professional_false_witness :
    conflictCallback none 2 600 630 exampleExisting = false ∧
    has_conflict [exampleExisting] none 2 600 630 = false :=
  hasConflict_different_professional_false none 2 600 630 exampleExisting (by decide)

/-- Raw overlap test ignoring the exclusion: same professional and
open-interval overlap with the candidate. -/
def overlapsCandidate (professionalId : Nat) (newStart newEnd : Int)
    (app : AppointmentType) : Bool :=
  (app.professional_id == professionalId) &&
    decide (newStart < app.end_date) && decide (newEnd > app.appointment_date)

/-- The callback is the overlap test gated by the exclusion check. -/
theorem conflictCallback_eq_true_iff (editingId : Option Nat)
    (professionalId : Nat) (newStart newEnd : Int) (app : AppointmentType) :
    conflictCallback editingId professionalId newStart newEnd app = true ↔
      (editingId ≠ some app.id ∧
        overlapsCandidate professionalId newStart newEnd app = true) := by
  unfold conflictCallback overlapsCandidate
  by_cases he : editingId = some app.id
  · simp [he]
  · rw [if_neg he]
    by_cases hp : app.professional_id = professionalId
    · simp [he, hp, and_assoc]
    · simp [he, hp]

/-- A list search finds nothing iff the predicate fails on every element. -/
theorem find_none_iff {α : Type} (p : α → Bool) (l : List α) :
    l.find? p = none ↔ ∀ a ∈ l, p a = false := by
  induction l with
  | nil => simp
  | cons x xs ih =>
    by_cases hx : p x
    · rw [List.find?_cons_of_pos _ hx]
      simp [hx]
    · rw [List.find?_cons_of_neg _ (by simp [hx])]
      rw [ih]
      constructor
      · intro h a ha
        rcases List.mem_cons.mp ha with ha | ha
        · simpa [ha] using hx
        · exact h a ha
      · intro h a ha
        exact h a (List.mem_cons_of_mem _ ha)

/-- A list search returns the first element satisfying the predicate:
everything strictly before it in the list fails the predicate. -/
theorem find_some_first {α : Type} (p : α → Bool) :
    ∀ (l : List α) (a : α), l.find? p = some a →
      ∃ l1 l2, l = l1 ++ a :: l2 ∧ (∀ b ∈ l1, p b = false) ∧ p a = true := by
  intro l
  induction l with
  | nil => intro a h; simp at h
  | cons x xs ih =>
    intro a h
    by_cases hx : p x
    · rw [List.find?_cons_of_pos _ hx] at h
      obtain rfl : x = a := by simpa using h
      exact ⟨[], xs, rfl, by simp, hx⟩
    · rw [List.find?_cons_of_neg _ (by simp [hx])] at h
      obtain ⟨l1, l2, hl, h1, h2⟩ := ih a h
      refine ⟨x :: l1, l2, by rw [hl, List.cons_append], ?_, h2⟩
      intro b hb
      rcases List.mem_cons.mp hb with hb | hb
      · simpa [hb] using hx
      · exact h1 b hb

/-- C5: when the exclude id is the candidate's own id and every appointment
that overlaps the candidate (same professional, open-interval overlap) is
the candidate's own prior record, has_conflict is false; in particular the
excluded appointment itself is always skipped by the callback. -/
theorem hasConflict_exclude_self (apps : List AppointmentType) (cid : Nat)
    (professionalId : Nat) (newStart newEnd : Int)
    (h : ∀ app ∈ apps, overlapsCandidate professionalId newStart newEnd app = true →
      app.id = cid) :
    has_conflict apps (some cid) professionalId newStart newEnd = false ∧
    (∀ app : AppointmentType, app.id = cid →
      conflictCallback (some cid) professionalId newStart newEnd app = false) := by
  constructor
  · unfold has_conflict conflictingAppointment
    have hnone : List.find? (conflictCallback (some cid) professionalId newStart newEnd)
        apps = none := by
      rw [find_none_iff]
      intro a ha
      rw [Bool.eq_false_iff]
      intro hc
      obtain ⟨hne, hov⟩ := (conflictCallback_eq_true_iff _ _ _ _ _).mp hc
      exact hne (by rw [h a ha hov])
    rw [hnone]
    rfl
  · intro app hid
    unfold conflictCallback
    rw [if_pos (by rw [hid])]

/-- Witness for hasConflict_exclude_self: editing the 600-630 appointment
of professional P in place, proposing the overlapping slot 615-645. -/
theorem hasConflict_exclude_self_witness :
    has_conflict [exampleExisting] (some 1) 1 615 645 = false ∧
    (∀ app : AppointmentType, app.id = 1 →
      conflictCallback (some 1) 1 615 645 app = false) :=
  hasConflict_exclude_self [exampleExisting] 1 1 615 645
    (by intro app hmem hov; simp at hmem; subst hmem; rfl)

/-- C7: the conflict search returns none exactly when no appointment in the
collection passes the conflict callback, and when it returns an appointment
that appointment is the first one in insertion order passing the callback:
the collection splits around it with every earlier element failing the
callback. -/
theorem conflictingAppointment_first (apps : List AppointmentType)
    (editingId : Option Nat) (professionalId : Nat) (newStart newEnd : Int) :
    (conflictingAppointment apps editingId professionalId newStart newEnd = none ↔
      ∀ a ∈ apps, conflictCallback editingId professionalId newStart newEnd a = false) ∧
    (∀ a, conflictingAppointment apps editingId professionalId newStart newEnd = some a →
      ∃ l1 l2, apps = l1 ++ a :: l2 ∧
        (∀ b ∈ l1, conflictCallback editingId professionalId newStart newEnd b = false) ∧
        conflictCallback editingId professionalId newStart newEnd a = true) := by
  constructor
  · unfold conflictingAppointment
    exact find_none_iff _ apps
  · intro a ha
    exact find_some_first _ apps a ha

/-- A second appointment, for professional Q (id 2), occupying 600-630. -/
def exampleOther : AppointmentType :=
  { id := 2, client_id := 2, professional_id := 2, service_id := 1,
    appointment_date := 600, end_date := 630, price := 5000, attended := false }

/-- Witness for conflictingAppointment_first: searching [exampleOther,
exampleExisting] for a P candidate at 615-645 finds exampleExisting, with
exampleOther before it failing the callback. -/
theorem conflictingAppointment_first_witness :
    ∃ l1 l2, [exampleOther, exampleExisting] = l1 ++ exampleExisting :: l2 ∧
      (∀ b ∈ l1, conflictCallback none 1 615 645 b = false) ∧
      conflictCallback none 1 615 645 exampleExisting = true :=
  (conflictingAppointment_first [exampleOther, exampleExisting] none 1 615 645).2
    exampleExisting (by decide)

/-- C6: when the candidate conflicts with an existing appointment, onSubmit
produces only the conflict error message: no update and no add is
performed, for any record value. -/
theorem onSubmit_conflict_aborts (store : StoreState)
    (editingAppointment : Option AppointmentType) (data : AppointmentFormData)
    (h : has_conflict store.appointments (editingAppointment.map (fun a => a.id))
      data.professional_id data.appointment_date data.end_date = true) :
    onSubmit store editingAppointment data = SubmitOutcome.conflictError ∧
    (∀ r : AppointmentRecord,
      onSubmit store editingAppointment data ≠ SubmitOutcome.added r ∧
      onSubmit store editingAppointment data ≠ SubmitOutcome.updated r) := by
  unfold has_conflict at h
  obtain ⟨a, ha⟩ := Option.isSome_iff_exists.mp h
  have hmain : onSubmit store editingAppointment data = SubmitOutcome.conflictError := by
    unfold onSubmit
    simp only [ha]
  refine ⟨hmain, fun r => ⟨?_, ?_⟩⟩
  · rw [hmain]
    intro hc
    cases hc
  · rw [hmain]
    intro hc
    cases hc

/-- Store snapshot holding only P's 600-630 appointment. -/
def exampleStore : StoreState :=
  { appointments := [exampleExisting], clients := [], professionals := [], services := [] }

/-- Form data proposing P at 615-645. -/
def exampleFormData : AppointmentFormData :=
  { client_id := 1, professional_id := 1, service_id := 1, price := 50,
    appointment_date := 615, end_date := 645, attended := none }

/-- Witness for onSubmit_conflict_aborts: creating a P appointment at
615-645 against the store holding P's 600-630 appointment. -/
theorem onSubmit_conflict_aborts_witness :
    onSubmit exampleStore none exampleFormData = SubmitOutcome.conflictError ∧
    (∀ r : AppointmentRecord,
      onSubmit exampleStore none exampleFormData ≠ SubmitOutcome.added r ∧
      onSubmit exampleStore none exampleFormData ≠ SubmitOutcome.updated r) :=
  onSubmit_conflict_aborts exampleStore none exampleFormData (by decide)

/-- The find traversal leaves the collection exactly as it was. -/
theorem find_traverse_snd (p : AppointmentType → Bool) (l : List AppointmentType) :
    (find_traverse p l).2 = l := by
  induction l with
  | nil => rfl
  | cons x xs ih =>
    unfold find_traverse
    by_cases hx : p x
    · rw [if_pos hx]
    · rw [if_neg hx]
      simpa using ih

/-- The find traversal computes the same result as the list search. -/
theorem find_traverse_fst (p : AppointmentType → Bool) (l : List AppointmentType) :
    (find_traverse p l).1 = l.find? p := by
  induction l with
  | nil => rfl
  | cons x xs ih =>
    unfold find_traverse
    by_cases hx : p x
    · rw [if_pos hx, List.find?_cons_of_pos _ hx]
    · rw [if_neg hx, List.find?_cons_of_neg _ (by simp [hx])]
      simpa using ih

/-- C8: the resolver is deterministic and mutation free: the traversal the
conflict search performs returns the appointment collection unchanged and
its result is the conflict search result, equal collections give equal
conflict results, and equal start/service inputs give equal derived end
times. -/
theorem resolver_deterministic_no_mutation (apps1 apps2 : List AppointmentType)
    (editingId : Option Nat) (professionalId : Nat) (newStart newEnd : Int)
    (st1 st2 : Int) (svc1 svc2 : ServiceType)
    (happs : apps1 = apps2) (hst : st1 = st2) (hsvc : svc1 = svc2) :
    (find_traverse (conflictCallback editingId professionalId newStart newEnd) apps1).2 = apps1 ∧
    (find_traverse (conflictCallback editingId professionalId newStart newEnd) apps1).1 =
      conflictingAppointment apps1 editingId professionalId newStart newEnd ∧
    conflictingAppointment apps1 editingId professionalId newStart newEnd =
      conflictingAppointment apps2 editingId professionalId newStart newEnd ∧
    derive_end_time st1 svc1 = derive_end_time st2 svc2 := by
  subst happs hst hsvc
  exact ⟨find_traverse_snd _ _, find_traverse_fst _ _, rfl, rfl⟩

/-- Witness for resolver_deterministic_no_mutation on the example store. -/
theorem resolver_deterministic_no_mutation_witness :
    (find_traverse (conflictCallback none 1 615 645) [exampleExisting]).2 = [exampleExisting] ∧
    (find_traverse (conflictCallback none 1 615 645) [exampleExisting]).1 =
      conflictingAppointment [exampleExisting] none 1 615 645 ∧
    conflictingAppointment [exampleExisting] none 1 615 645 =
      conflictingAppointment [exampleExisting] none 1 615 645 ∧
    derive_end_time 600 ⟨1, "corte", 5000, 30⟩ = derive_end_time 600 ⟨1, "corte", 5000, 30⟩ :=
  resolver_deterministic_no_mutation [exampleExisting] [exampleExisting] none 1 615 645
    600 600 ⟨1, "corte", 5000, 30⟩ ⟨1, "corte", 5000, 30⟩ rfl rfl rfl

/-- C9: the conflict test does not enforce start < end on the candidate: a
degenerate candidate with start = end = t strictly inside an existing
same-professional appointment still conflicts, while a degenerate candidate
at or outside the existing appointment's boundary does not. -/
theorem degenerate_candidate_conflict (app : AppointmentType) (t : Int) :
    (app.appointment_date < t → t < app.end_date →
      has_conflict [app] none app.professional_id t t = true) ∧
    ((t ≤ app.appointment_date ∨ app.end_date ≤ t) →
      has_conflict [app] none app.professional_id t t = false) := by
  have hcb : conflictCallback none app.professional_id t t app =
      (decide (t < app.end_date) && decide (t > app.appointment_date)) := by
    unfold conflictCallback
    simp
  constructor
  · intro h1 h2
    unfold has_conflict conflictingAppointment
    rw [List.find?_cons_of_pos]
    · rfl
    · rw [hcb]
      simp only [Bool.and_eq_true, decide_eq_true_eq, gt_iff_lt]
      exact ⟨h2, h1⟩
  · intro h
    unfold has_conflict conflictingAppointment
    rw [List.find?_cons_of_neg]
    · rfl
    · rw [hcb]
      simp only [Bool.and_eq_true, decide_eq_true_eq, gt_iff_lt, not_and, not_lt]
      intro hlt
      omega

/-- Witness for degenerate_candidate_conflict: the instant 615 lies inside
P's 600-630 appointment and conflicts; the instant 600 sits on its start
boundary and does not. -/
theorem degenerate_candidate_conflict_witness :
    has_conflict [exampleExisting] none exampleExisting.professional_id 615 615 = true ∧
    has_conflict [exampleExisting] none exampleExisting.professional_id 600 600 = false :=
  ⟨(degenerate_candidate_conflict exampleExisting 615).1 (by decide) (by decide),
   (degenerate_candidate_conflict exampleExisting 600).2 (Or.inl (by decide))⟩

/-- C10: the price round-trips through the edit form: loading divides the
stored integer minor-unit price by 100, and submitting rounds the product
with 100, recovering the original integer exactly. -/
theorem price_round_trips (app : AppointmentType) :
    onSubmit_price (handleOpenModal_price app) = app.price := by
  unfold onSubmit_price handleOpenModal_price jsMathRound
  rw [div_mul_cancel₀ _ (by norm_num : (100 : ℚ) ≠ 0)]
  rw [add_comm, Int.floor_add_int]
  norm_num

end Appointments
